import Mathlib

/-! Overview.
Shallow embedding of the `ecs` crate's storage and query engine
(`src/component.rs`, `src/entity.rs`) of the skyward repository.

Conventions of the embedding:
* entity ids (`usize`) and frame counters (`u64`) are `Nat` (no claim touches
  integer overflow);
* Rust's `TypeId` is modelled as a `Nat` tag: the manager maps are keyed by
  these tags, and a concrete component type is a concrete tag;
* `HashMap` is modelled as an association list with unique keys, lookup by
  first match and replace-on-insert semantics (`hmGet`, `hmInsert`,
  `hmRemove`, `hmContains`); the only place the source iterates over a
  `HashMap` (`remove_entity`) applies commuting per-key updates, so iterating
  the association list in stored order is a faithful representative of the
  unspecified iteration order;
* all component stores of one manager share a single Lean value type `V` (the
  type-erased handle plus checked downcast of the source is the identity
  here); distinct component types are distinct tags.
-/

namespace Skyward

/-- Embeds `HashMap::get`, modelled on an association list. -/
def hmGet {α : Type} : List (Nat × α) → Nat → Option α
  | [], _ => none
  | p :: rest, k => if p.1 = k then some p.2 else hmGet rest k

/-- Embeds `HashMap::remove`. -/
def hmRemove {α : Type} : List (Nat × α) → Nat → List (Nat × α)
  | [], _ => []
  | p :: rest, k => if p.1 = k then hmRemove rest k else p :: hmRemove rest k

/-- Embeds `HashMap::insert`: replace any existing binding of `k` by `v`. -/
def hmInsert {α : Type} (m : List (Nat × α)) (k : Nat) (v : α) : List (Nat × α) :=
  (k, v) :: hmRemove m k

/-- Embeds `HashMap::contains_key`. -/
def hmContains {α : Type} (m : List (Nat × α)) (k : Nat) : Bool :=
  (hmGet m k).isSome

theorem hmGet_insert_self {α : Type} (m : List (Nat × α)) (k : Nat) (v : α) :
    hmGet (hmInsert m k v) k = some v := by
  simp [hmInsert, hmGet]

theorem hmGet_remove_self {α : Type} (m : List (Nat × α)) (k : Nat) :
    hmGet (hmRemove m k) k = none := by
  induction m with
  | nil => rfl
  | cons p rest ih =>
    by_cases hpk : p.1 = k
    · have h1 : hmRemove (p :: rest) k = hmRemove rest k := by simp [hmRemove, hpk]
      rw [h1, ih]
    · have h1 : hmRemove (p :: rest) k = p :: hmRemove rest k := by simp [hmRemove, hpk]
      have h2 : hmGet (p :: hmRemove rest k) k = hmGet (hmRemove rest k) k := by
        simp [hmGet, hpk]
      rw [h1, h2, ih]

theorem hmGet_remove_ne {α : Type} (m : List (Nat × α)) {k k' : Nat}
    (h : k' ≠ k) : hmGet (hmRemove m k) k' = hmGet m k' := by
  induction m with
  | nil => rfl
  | cons p rest ih =>
    by_cases hpk : p.1 = k
    · have h1 : hmRemove (p :: rest) k = hmRemove rest k := by simp [hmRemove, hpk]
      have h2 : hmGet (p :: rest) k' = hmGet rest k' := by
        have hne : p.1 ≠ k' := by rw [hpk]; exact Ne.symm h
        simp [hmGet, hne]
      rw [h1, h2, ih]
    · have h1 : hmRemove (p :: rest) k = p :: hmRemove rest k := by simp [hmRemove, hpk]
      by_cases hpk' : p.1 = k'
      · have h2 : hmGet (p :: rest) k' = some p.2 := by simp [hmGet, hpk']
        have h3 : hmGet (p :: hmRemove rest k) k' = some p.2 := by simp [hmGet, hpk']
        rw [h1, h3, h2]
      · have h2 : hmGet (p :: rest) k' = hmGet rest k' := by simp [hmGet, hpk']
        have h3 : hmGet (p :: hmRemove rest k) k' = hmGet (hmRemove rest k) k' := by
          simp [hmGet, hpk']
        rw [h1, h3, h2, ih]

theorem hmGet_insert_ne {α : Type} (m : List (Nat × α)) {k k' : Nat} (v : α)
    (h : k' ≠ k) : hmGet (hmInsert m k v) k' = hmGet m k' := by
  simp only [hmInsert, hmGet, if_neg (Ne.symm h)]
  exact hmGet_remove_ne m h

theorem hmContains_insert_self {α : Type} (m : List (Nat × α)) (k : Nat) (v : α) :
    hmContains (hmInsert m k v) k = true := by
  simp [hmContains, hmGet_insert_self]

theorem hmContains_eq_isSome {α : Type} (m : List (Nat × α)) (k : Nat) :
    hmContains m k = (hmGet m k).isSome := rfl

theorem hmGet_mem {α : Type} {m : List (Nat × α)} {k : Nat} {v : α}
    (h : hmGet m k = some v) : (k, v) ∈ m := by
  induction m with
  | nil => simp [hmGet] at h
  | cons p rest ih =>
    by_cases hpk : p.1 = k
    · simp only [hmGet, if_pos hpk] at h
      have hv : p.2 = v := Option.some.inj h
      subst hv
      rw [← hpk]
      exact List.mem_cons_self _ _
    · simp only [hmGet, if_neg hpk] at h
      exact List.mem_cons_of_mem _ (ih h)

/-- Embeds `Vec::swap_remove(i)`: move the last element into slot `i`, drop the last
slot.  (On an empty vector the source panics; that branch is unreachable in
every use below, and the model returns the list unchanged.) -/
def swapRemove {α : Type} (l : List α) (i : Nat) : List α :=
  match l.getLast? with
  | none => l
  | some lastElem => (l.set i lastElem).dropLast

/-- Embeds `SimpleComponentManager<T>` from `src/component.rs`: parallel dense vectors
of component values and owning entity ids, plus the entity → dense index map. -/
structure SimpleComponentManager (V : Type) where
  components : List V
  entities : List Nat
  entity_idx : List (Nat × Nat)
deriving Repr, DecidableEq

namespace SimpleComponentManager

/-- Embeds `SimpleComponentManager::new`. -/
def new {V : Type} : SimpleComponentManager V :=
  { components := [], entities := [], entity_idx := [] }

/-- Embeds `ComponentManager::has` for `SimpleComponentManager`:
`self.entities.contains(&entity)`. -/
def has {V : Type} (s : SimpleComponentManager V) (entity : Nat) : Bool :=
  s.entities.contains entity

/-- Embeds `TypedComponentManager::with` for `SimpleComponentManager` (named
`withComponent` because `with` is reserved in Lean): a no-op if the entity is
already present, otherwise push to both dense vectors and record the new
index `components.len() - 1`. -/
def withComponent {V : Type} (s : SimpleComponentManager V) (entity : Nat)
    (component : V) : SimpleComponentManager V :=
  if s.has entity then s
  else
    { components := s.components ++ [component]
      entities := s.entities ++ [entity]
      entity_idx := hmInsert s.entity_idx entity s.components.length }

/-- Embeds `TypedComponentManager::component` for `SimpleComponentManager`: look the
entity up in `entity_idx`, then index the dense vector.  (`component_mut`
is the same lookup; in the pure model they coincide.  An out-of-range dense
index — a panic in Rust, impossible in well-formed stores — yields `none`.) -/
def component {V : Type} (s : SimpleComponentManager V) (entity : Nat) :
    Option V :=
  match hmGet s.entity_idx entity with
  | none => none
  | some index => s.components[index]?

/-- Embeds `ComponentManager::clear` for `SimpleComponentManager`: a no-op if absent,
otherwise re-point the index entry of the last dense element at the freed
slot, swap-remove both dense vectors, and drop the removed entity's index
entry — exactly the statement order of the source. -/
def clear {V : Type} (s : SimpleComponentManager V) (entity : Nat) :
    SimpleComponentManager V :=
  if !s.has entity then s
  else
    match hmGet s.entity_idx entity, s.entities.getLast? with
    | some index, some lastEntity =>
        { components := swapRemove s.components index
          entities := swapRemove s.entities index
          entity_idx := hmRemove (hmInsert s.entity_idx lastEntity index) entity }
    | _, _ => s

end SimpleComponentManager

/-- Embeds `Entity` from `src/entity.rs`. -/
structure Entity where
  id : Nat
  alive : Bool
deriving Repr, DecidableEq

/-- Embeds `Entity::new`. -/
def Entity.new (id : Nat) : Entity :=
  { id := id, alive := true }

/-- Embeds `EntityContainer` from `src/entity.rs`: the dense entity vector and the
FIFO pool of freed indices. -/
structure EntityContainer where
  entities : List Entity
  dead_idx : List Nat
deriving Repr, DecidableEq

namespace EntityContainer

/-- Embeds `EntityContainer::new`. -/
def new : EntityContainer :=
  { entities := [], dead_idx := [] }

/-- Embeds `EntityContainer::has`: `entity_id < self.entities.len()`. -/
def has (c : EntityContainer) (entity_id : Nat) : Bool :=
  entity_id < c.entities.length

/-- Embeds `EntityContainer::entity`: pop the front of `dead_idx` if non-empty (the
source sets `alive = true` on a *copy* of the stored entity, so the vector is
unchanged); otherwise mint `id = entities.len() + 1`, push `Entity::new(id)`,
and return `id - 1`. -/
def entity (c : EntityContainer) : Nat × EntityContainer :=
  match c.dead_idx with
  | index :: rest => (index, { c with dead_idx := rest })
  | [] =>
      let id := c.entities.length + 1
      (id - 1, { c with entities := c.entities ++ [Entity.new id] })

/-- Embeds `EntityContainer::remove`: a no-op for unknown ids, otherwise push the id
onto the back of `dead_idx` and mark the stored entity dead. -/
def remove (c : EntityContainer) (entity_id : Nat) : EntityContainer :=
  if !c.has entity_id then c
  else
    { entities :=
        c.entities.mapIdx fun i e =>
          if i = entity_id then { e with alive := false } else e
      dead_idx := c.dead_idx ++ [entity_id] }

end EntityContainer

/-- Embeds `EntityManager` from `src/entity.rs`: entity container, the type-tag →
store map, the per-type changed-frame map, and the frame counter. -/
structure EntityManager (V : Type) where
  container : EntityContainer
  managers : List (Nat × SimpleComponentManager V)
  frame_map : List (Nat × Nat)
  frame : Nat
deriving Repr, DecidableEq

namespace EntityManager

/-- Embeds `EntityManager::new`. -/
def new (V : Type) : EntityManager V :=
  { container := EntityContainer.new, managers := [], frame_map := [], frame := 0 }

/-- Embeds `EntityManager::get_updated_frame::<T>` (and `get_updated_frame_type`):
the recorded changed-frame of the tag, or `0` if absent. -/
def get_updated_frame {V : Type} (m : EntityManager V) (tid : Nat) : Nat :=
  (hmGet m.frame_map tid).getD 0

/-- Embeds `EntityManager::register::<T>`: a no-op if the tag already has a store,
otherwise create an empty store and record the current frame for the tag. -/
def register {V : Type} (m : EntityManager V) (tid : Nat) : EntityManager V :=
  if hmContains m.managers tid then m
  else
    { m with
      managers := hmInsert m.managers tid SimpleComponentManager.new
      frame_map := hmInsert m.frame_map tid m.frame }

/-- Embeds `EntityManager::entity`: delegate to the container. -/
def entity {V : Type} (m : EntityManager V) : Nat × EntityManager V :=
  ((m.container.entity).1, { m with container := (m.container.entity).2 })

/-- Embeds `EntityManager::remove_entity`: call `clear(entity_id)` on every
registered store and set every registered tag's changed-frame to
`frame + 1` (the source does both for *each* entry of the manager map,
whether or not the store contained the entity), then free the id in the
container. -/
def remove_entity {V : Type} (m : EntityManager V) (entity_id : Nat) :
    EntityManager V :=
  { m with
    managers := m.managers.map fun p => (p.1, p.2.clear entity_id)
    frame_map := m.managers.foldl (fun fm p => hmInsert fm p.1 (m.frame + 1)) m.frame_map
    container := m.container.remove entity_id }

/-- Embeds `EntityManager::tick_frame`. -/
def tick_frame {V : Type} (m : EntityManager V) : EntityManager V :=
  { m with frame := m.frame + 1 }

/-- Embeds `EntityManager::entity_with::<T>`: auto-register the tag if unseen, insert
through the store's `with`, and set the tag's changed-frame to the *current*
frame. -/
def entity_with {V : Type} (m : EntityManager V) (tid : Nat) (entity_id : Nat)
    (component : V) : EntityManager V :=
  let m1 := if hmContains m.managers tid then m else m.register tid
  let m2 :=
    match hmGet m1.managers tid with
    | some mgr =>
        { m1 with
          managers := hmInsert m1.managers tid (mgr.withComponent entity_id component) }
    | none => m1
  { m2 with frame_map := hmInsert m2.frame_map tid m2.frame }

/-- Embeds `EntityManager::query_entity_ids::<T>`: the dense entity vector of the
tag's store, `none` for an unregistered tag. -/
def query_entity_ids {V : Type} (m : EntityManager V) (tid : Nat) :
    Option (List Nat) :=
  (hmGet m.managers tid).map fun mgr => mgr.entities

/-- Embeds as an outcome type one expansion of one expansion of the `query!` macro (`query_entity` et al.):
the source either returns `None` (unregistered tag), panics on the
`component_mut(entity).unwrap()`, or returns the component. -/
inductive QueryResult (V : Type) where
  | retNone : QueryResult V
  | panic : QueryResult V
  | ret : V → QueryResult V
deriving Repr, DecidableEq

/-- Embeds `EntityManager::query_entity::<T>` (one expansion of the `query!` macro):
`self.managers.get(&type_id)?` then `manager.component_mut(entity).unwrap()`. -/
def query_entity {V : Type} (m : EntityManager V) (tid : Nat) (entity_id : Nat) :
    QueryResult V :=
  match hmGet m.managers tid with
  | none => QueryResult.retNone
  | some mgr =>
      match mgr.component entity_id with
      | none => QueryResult.panic
      | some v => QueryResult.ret v

end EntityManager

/-- Embeds `EntityQueryTable` from `src/entity.rs`. -/
structure EntityQueryTable where
  query_cache : List (Nat × List Nat)
  frames : List (Nat × Nat)
deriving Repr, DecidableEq

namespace EntityQueryTable

/-- Embeds `EntityQueryTable::new`. -/
def new : EntityQueryTable :=
  { query_cache := [], frames := [] }

/-- Embeds `EntityQueryTable::query_single::<T>`: if no cache entry exists, insert an
empty one *before* consulting the manager (the `?` on
`manager.borrow_manager::<T>()` then leaks the empty entry for unregistered
tags), then copy the store's dense entity vector into the cache; finally
serve `query_cache.get(&type_id)`. -/
def query_single {V : Type} (t : EntityQueryTable) (m : EntityManager V)
    (tid : Nat) : Option (List Nat) × EntityQueryTable :=
  if hmContains t.query_cache tid then (hmGet t.query_cache tid, t)
  else
    let t1 : EntityQueryTable := { t with query_cache := hmInsert t.query_cache tid [] }
    match hmGet m.managers tid with
    | none => (none, t1)
    | some mgr =>
        let t2 : EntityQueryTable :=
          { t1 with query_cache := hmInsert t1.query_cache tid mgr.entities }
        (hmGet t2.query_cache tid, t2)

/-- First closure of `EntityQueryTable::query`, iterated by
`Tuple::for_every_type` over the constituent tags in tuple order, stopping at
the first unregistered tag (the `?` inside the `tuple!` macro): ensure a cache
entry, decide `update` from the frame comparison
`data.update_frame == *updated_frame.unwrap_or(&(data.update_frame + 1))`,
rebuild the per-tag cache slice when `update`, and append the slice to `vec`. -/
def queryPass1 {V : Type} (m : EntityManager V) :
    List Nat → List Nat → EntityQueryTable → List Nat × EntityQueryTable
  | [], vec, t => (vec, t)
  | tid :: rest, vec, t =>
      match m.query_entity_ids tid with
      | none => (vec, t)
      | some entities =>
          let uf := m.get_updated_frame tid
          let ensured :=
            if hmContains t.query_cache tid = false then
              ({ t with query_cache := hmInsert t.query_cache tid [] }, true)
            else
              (t, match hmGet t.frames tid with
                  | some f => uf != f
                  | none => true)
          let t1 := ensured.1
          let t2 :=
            if ensured.2 then
              { query_cache := hmInsert t1.query_cache tid entities
                frames := hmInsert t1.frames tid uf }
            else t1
          queryPass1 m rest (vec ++ (hmGet t2.query_cache tid).getD []) t2

/-- Second closure of `EntityQueryTable::query`, iterated the same way:
collect into `to_remove` the members of `vec` missing from the tag's dense
entity vector, then run the source's `vec.retain(|e| e == entity)` for each —
the retain predicate *keeps* the matching entities, exactly as written. -/
def queryPass2 {V : Type} (m : EntityManager V) : List Nat → List Nat → List Nat
  | [], vec => vec
  | tid :: rest, vec =>
      match m.query_entity_ids tid with
      | none => vec
      | some entities =>
          let to_remove := vec.filter fun e => !entities.contains e
          let vec1 := to_remove.foldl (fun v x => v.filter fun e => e == x) vec
          queryPass2 m rest vec1

/-- Embeds `EntityQueryTable::query::<T>` for a tuple of tags: run both
`for_every_type` passes (their `Option` results are discarded by the source —
the calls stand in statement position) and return `Some(vec)` unconditionally. -/
def query {V : Type} (t : EntityQueryTable) (m : EntityManager V)
    (types : List Nat) : Option (List Nat) × EntityQueryTable :=
  let p := queryPass1 m types [] t
  (some (queryPass2 m types p.1), p.2)

end EntityQueryTable

/-- The sparse-set invariant of §3 of the spec for a `SimpleComponentManager`:
the dense vectors are aligned, the dense entity vector has no duplicates,
every dense slot is indexed by `entity_idx`, and every `entity_idx` key is a
stored entity.  Every store reachable through `new`/`with`/`clear` satisfies
it. -/
def SimpleComponentManager.WF {V : Type} (s : SimpleComponentManager V) : Prop :=
  s.components.length = s.entities.length ∧
  s.entities.Nodup ∧
  (∀ i : Nat, ∀ h : i < s.entities.length,
      hmGet s.entity_idx (s.entities.get ⟨i, h⟩) = some i) ∧
  (∀ p ∈ s.entity_idx, p.1 ∈ s.entities)

instance {V : Type} (s : SimpleComponentManager V) : Decidable s.WF := by
  unfold SimpleComponentManager.WF
  exact inferInstance

/-! Concrete scenario states used by the individual claims.
All use `V := Nat` for the component values. -/

/-- Scenario C1: manager with type tag `0` ("TypeA") holding entities `{1,2,3}` and
type tag `1` ("TypeB") holding entities `{2,3,4}`, registered A-then-B. -/
def c1ManagerAB : EntityManager Nat :=
  ((((((((EntityManager.new Nat).register 0).register 1).entity_with 0 1 0).entity_with
    0 2 0).entity_with 0 3 0).entity_with 1 2 0).entity_with 1 3 0).entity_with 1 4 0

/-- Scenario C1: the same component data, registered B-then-A. -/
def c1ManagerBA : EntityManager Nat :=
  ((((((((EntityManager.new Nat).register 1).register 0).entity_with 0 1 0).entity_with
    0 2 0).entity_with 0 3 0).entity_with 1 2 0).entity_with 1 3 0).entity_with 1 4 0

/-- Scenario C3: manager after registering `Position` (tag `0`), creating entity `0`
and attaching a `Position` value to it. -/
def c3Manager : EntityManager Nat :=
  ((((EntityManager.new Nat).register 0).entity).2).entity_with 0 0 11

/-- Scenario C3: first `query_single::<Position>()` on a fresh query table. -/
def c3First : Option (List Nat) × EntityQueryTable :=
  EntityQueryTable.new.query_single c3Manager 0

/-- Scenario C3: the manager after detaching all components from entity `0` (freeing
it) and advancing the frame. -/
def c3ManagerAfter : EntityManager Nat :=
  (c3Manager.remove_entity 0).tick_frame

/-- Scenario C3: the second `query_single::<Position>()`, on the table produced by the
first call. -/
def c3Second : Option (List Nat) × EntityQueryTable :=
  (c3First.2).query_single c3ManagerAfter 0

/-- Scenario C4: manager with tags `0` and `1` registered at frame `0`, entity `5`
holding only a tag-`0` component, frame advanced to `2`. -/
def c4Manager : EntityManager Nat :=
  (((((EntityManager.new Nat).register 0).register 1).entity_with 0 5 7).tick_frame).tick_frame

/-- Scenario C6: store holding components for entities `1`, `2`, `3`; clearing entity
`1` swap-relocates entity `3` into the freed dense slot. -/
def c6Store : SimpleComponentManager Nat :=
  ((SimpleComponentManager.new.withComponent 1 10).withComponent 2 20).withComponent 3 30

/-- Scenario C8: container after allocating ids `0`, `1`, `2` and then freeing id `2`
followed by id `1` (so the FIFO free pool is `[2, 1]`). -/
def c8Container : EntityContainer :=
  (((((EntityContainer.new.entity).2.entity).2.entity).2).remove 2).remove 1

/-- Scenario C9: manager with tag `0` registered and no component attached. -/
def c9Manager : EntityManager Nat :=
  (EntityManager.new Nat).register 0

/-- Scenario C10: first `query_single` for the never-registered tag `0` on a fresh
table and fresh manager. -/
def c10First : Option (List Nat) × EntityQueryTable :=
  EntityQueryTable.new.query_single (EntityManager.new Nat) 0

/-- Scenario C10: a later manager state in which tag `0` *is* registered and entity `0`
carries a component of it. -/
def c10LaterManager : EntityManager Nat :=
  ((EntityManager.new Nat).register 0).entity_with 0 0 42

/-! Helper lemmas. -/

theorem mem_keys_of_hmContains {α : Type} {m : List (Nat × α)} {k : Nat}
    (h : hmContains m k = true) : k ∈ m.map Prod.fst := by
  unfold hmContains at h
  cases hg : hmGet m k with
  | none => rw [hg] at h; simp at h
  | some v => exact List.mem_map.mpr ⟨(k, v), hmGet_mem hg, rfl⟩

theorem hmGet_foldl_insert_of_not_mem {α β : Type} (c : α) :
    ∀ (l : List (Nat × β)) (fm : List (Nat × α)) {k : Nat},
      k ∉ l.map Prod.fst →
      hmGet (l.foldl (fun fm p => hmInsert fm p.1 c) fm) k = hmGet fm k
  | [], _, _, _ => rfl
  | p :: rest, fm, k, h => by
    have h1 : k ≠ p.1 := fun hc => h (by simp [hc])
    have h2 : k ∉ rest.map Prod.fst := fun hc => h (by simp [hc])
    rw [List.foldl_cons, hmGet_foldl_insert_of_not_mem c rest _ h2]
    exact hmGet_insert_ne fm c h1

theorem hmGet_foldl_insert_of_mem {α β : Type} (c : α) :
    ∀ (l : List (Nat × β)) (fm : List (Nat × α)) {k : Nat},
      k ∈ l.map Prod.fst →
      hmGet (l.foldl (fun fm p => hmInsert fm p.1 c) fm) k = some c
  | [], _, _, h => by simp at h
  | p :: rest, fm, k, h => by
    rw [List.foldl_cons]
    by_cases hr : k ∈ rest.map Prod.fst
    · exact hmGet_foldl_insert_of_mem c rest _ hr
    · have hk : k = p.1 := by
        have hcons : k ∈ p.1 :: rest.map Prod.fst := by simpa using h
        rcases List.mem_cons.mp hcons with hk | hk
        · exact hk
        · exact absurd hk hr
      rw [hmGet_foldl_insert_of_not_mem c rest _ hr, hk, hmGet_insert_self]

theorem withComponent_of_has {V : Type} {s : SimpleComponentManager V} {e : Nat}
    (v : V) (h : s.has e = true) : s.withComponent e v = s := by
  unfold SimpleComponentManager.withComponent
  rw [h]
  simp

theorem has_withComponent_self {V : Type} (s : SimpleComponentManager V)
    (e : Nat) (v : V) : (s.withComponent e v).has e = true := by
  unfold SimpleComponentManager.withComponent
  split
  next h => exact h
  next h => simp [SimpleComponentManager.has]

theorem withComponent_component_self {V : Type} (s : SimpleComponentManager V)
    (e : Nat) (v : V) (h : s.has e = false) :
    (s.withComponent e v).component e = some v := by
  unfold SimpleComponentManager.withComponent
  rw [h]
  simp only [Bool.false_eq_true, if_false]
  unfold SimpleComponentManager.component
  rw [hmGet_insert_self]
  simp

theorem query_single_of_contains {V : Type} {t : EntityQueryTable}
    (m : EntityManager V) {tid : Nat}
    (hc : hmContains t.query_cache tid = true) :
    t.query_single m tid = (hmGet t.query_cache tid, t) := by
  unfold EntityQueryTable.query_single
  rw [if_pos hc]

theorem query_single_of_not_contains_none {V : Type} {t : EntityQueryTable}
    {m : EntityManager V} {tid : Nat}
    (hc : hmContains t.query_cache tid = false)
    (hm : hmGet m.managers tid = none) :
    t.query_single m tid =
      (none, { t with query_cache := hmInsert t.query_cache tid [] }) := by
  unfold EntityQueryTable.query_single
  rw [if_neg (by simp [hc]), hm]

theorem query_single_of_not_contains_some {V : Type} {t : EntityQueryTable}
    {m : EntityManager V} {tid : Nat} {mgr : SimpleComponentManager V}
    (hc : hmContains t.query_cache tid = false)
    (hm : hmGet m.managers tid = some mgr) :
    t.query_single m tid =
      (some mgr.entities,
        { t with
          query_cache := hmInsert (hmInsert t.query_cache tid []) tid mgr.entities }) := by
  unfold EntityQueryTable.query_single
  rw [if_neg (by simp [hc]), hm]
  simp only [hmGet_insert_self]

theorem mem_of_has {V : Type} {s : SimpleComponentManager V} {e : Nat}
    (h : s.has e = true) : e ∈ s.entities := by
  simpa [SimpleComponentManager.has] using h

theorem not_mem_of_has_false {V : Type} {s : SimpleComponentManager V} {e : Nat}
    (h : s.has e = false) : e ∉ s.entities := by
  intro hmem
  have h' : s.has e = true := by simpa [SimpleComponentManager.has] using hmem
  rw [h] at h'
  exact Bool.false_ne_true h'

theorem component_eq_none_of_hmGet_none {V : Type} {s : SimpleComponentManager V}
    {e : Nat} (h : hmGet s.entity_idx e = none) : s.component e = none := by
  unfold SimpleComponentManager.component
  rw [h]

theorem component_eq_of_hmGet_some {V : Type} {s : SimpleComponentManager V}
    {e i : Nat} (h : hmGet s.entity_idx e = some i) :
    s.component e = s.components[i]? := by
  unfold SimpleComponentManager.component
  rw [h]

theorem WF_hmGet_of_getElem? {V : Type} {s : SimpleComponentManager V}
    (hwf : s.WF) {e j : Nat} (hj : s.entities[j]? = some e) :
    hmGet s.entity_idx e = some j := by
  obtain ⟨hlt, hget⟩ := List.getElem?_eq_some_iff.mp hj
  have h3 := hwf.2.2.1 j hlt
  rwa [List.get_eq_getElem, hget] at h3

theorem WF_getElem?_of_hmGet {V : Type} {s : SimpleComponentManager V}
    (hwf : s.WF) {e i : Nat} (hg : hmGet s.entity_idx e = some i) :
    s.entities[i]? = some e := by
  have hmem : e ∈ s.entities := by
    have h4 := hwf.2.2.2 (e, i) (hmGet_mem hg)
    simpa using h4
  obtain ⟨j, hj⟩ := List.mem_iff_getElem?.mp hmem
  have hgj := WF_hmGet_of_getElem? hwf hj
  rw [hg] at hgj
  obtain rfl : i = j := Option.some.inj hgj
  exact hj

theorem WF_hmGet_none {V : Type} {s : SimpleComponentManager V} (hwf : s.WF)
    {e : Nat} (he : e ∉ s.entities) : hmGet s.entity_idx e = none := by
  cases hg : hmGet s.entity_idx e with
  | none => rfl
  | some i =>
      exact absurd (by simpa using hwf.2.2.2 (e, i) (hmGet_mem hg)) he

theorem clear_of_not_has {V : Type} {s : SimpleComponentManager V} {e : Nat}
    (h : s.has e = false) : s.clear e = s := by
  unfold SimpleComponentManager.clear
  rw [h]
  simp

theorem clear_eq {V : Type} {s : SimpleComponentManager V} {e i lastE : Nat}
    (hhas : s.has e = true) (hg : hmGet s.entity_idx e = some i)
    (hlast : s.entities.getLast? = some lastE) :
    s.clear e =
      { components := swapRemove s.components i
        entities := swapRemove s.entities i
        entity_idx := hmRemove (hmInsert s.entity_idx lastE i) e } := by
  unfold SimpleComponentManager.clear
  rw [hhas, if_neg (by simp), hg, hlast]

theorem swapRemove_length {α : Type} {l : List α} {lastE : α} (i : Nat)
    (hlast : l.getLast? = some lastE) :
    (swapRemove l i).length = l.length - 1 := by
  unfold swapRemove
  rw [hlast]
  simp

theorem swapRemove_getElem?_of_ne {α : Type} {l : List α} {i j : Nat}
    (hj : j < l.length - 1) (hne : j ≠ i) : (swapRemove l i)[j]? = l[j]? := by
  unfold swapRemove
  cases hlast : l.getLast? with
  | none => rfl
  | some lastE =>
      show ((l.set i lastE).dropLast)[j]? = l[j]?
      rw [List.dropLast_eq_take, List.length_set, List.getElem?_take_of_lt hj,
        List.getElem?_set_ne (Ne.symm hne)]

theorem swapRemove_getElem?_self {α : Type} {l : List α} {lastE : α} {i : Nat}
    (hlast : l.getLast? = some lastE) (hi : i < l.length - 1) :
    (swapRemove l i)[i]? = some lastE := by
  unfold swapRemove
  rw [hlast]
  show ((l.set i lastE).dropLast)[i]? = some lastE
  rw [List.dropLast_eq_take, List.length_set, List.getElem?_take_of_lt hi,
    List.getElem?_set_self']
  have hilt : i < l.length := lt_of_lt_of_le hi (Nat.sub_le _ _)
  simp [List.getElem?_eq_getElem hilt]

theorem getLast?_ne_none_of_pos {α : Type} {l : List α}
    (hpos : 0 < l.length) : l.getLast? ≠ none := by
  intro hc
  rw [List.getLast?_eq_getElem?,
    List.getElem?_eq_getElem (Nat.sub_lt hpos Nat.one_pos)] at hc
  exact Option.noConfusion hc

theorem getLast?_getElem? {α : Type} {l : List α} {lastE : α}
    (h : l.getLast? = some lastE) : l[l.length - 1]? = some lastE := by
  rw [← List.getLast?_eq_getElem?]
  exact h

theorem clear_has_self {V : Type} {s : SimpleComponentManager V} (hwf : s.WF)
    (e : Nat) : (s.clear e).has e = false := by
  cases hhas : s.has e with
  | false => rw [clear_of_not_has hhas]; exact hhas
  | true =>
      obtain ⟨i, hi⟩ := List.mem_iff_getElem?.mp (mem_of_has hhas)
      have hg : hmGet s.entity_idx e = some i := WF_hmGet_of_getElem? hwf hi
      have hilt : i < s.entities.length := (List.getElem?_eq_some_iff.mp hi).1
      have hpos : 0 < s.entities.length := Nat.lt_of_le_of_lt (Nat.zero_le _) hilt
      cases hlastc : s.entities.getLast? with
      | none => exact absurd hlastc (getLast?_ne_none_of_pos hpos)
      | some lastE =>
          have hn1 : s.entities[s.entities.length - 1]? = some lastE :=
            getLast?_getElem? hlastc
          rw [clear_eq hhas hg hlastc]
          show (swapRemove s.entities i).contains e = false
          rw [Bool.eq_false_iff]
          intro hc
          have hmem' : e ∈ swapRemove s.entities i := by simpa using hc
          obtain ⟨j, hj⟩ := List.mem_iff_getElem?.mp hmem'
          have hjlt : j < (swapRemove s.entities i).length :=
            (List.getElem?_eq_some_iff.mp hj).1
          rw [swapRemove_length i hlastc] at hjlt
          by_cases hji : j = i
          · subst hji
            rw [swapRemove_getElem?_self hlastc hjlt] at hj
            have hle : lastE = e := Option.some.inj hj
            rw [hle] at hn1
            have hii : j = s.entities.length - 1 :=
              List.getElem?_inj hilt hwf.2.1 (by rw [hi, hn1])
            omega
          · rw [swapRemove_getElem?_of_ne hjlt hji] at hj
            exact hji (List.getElem?_inj
              (lt_of_lt_of_le hjlt (Nat.sub_le _ _)) hwf.2.1 (by rw [hj, hi]))

theorem clear_component_self {V : Type} {s : SimpleComponentManager V}
    (hwf : s.WF) (e : Nat) : (s.clear e).component e = none := by
  cases hhas : s.has e with
  | false =>
      rw [clear_of_not_has hhas]
      exact component_eq_none_of_hmGet_none
        (WF_hmGet_none hwf (not_mem_of_has_false hhas))
  | true =>
      obtain ⟨i, hi⟩ := List.mem_iff_getElem?.mp (mem_of_has hhas)
      have hg : hmGet s.entity_idx e = some i := WF_hmGet_of_getElem? hwf hi
      have hilt : i < s.entities.length := (List.getElem?_eq_some_iff.mp hi).1
      have hpos : 0 < s.entities.length := Nat.lt_of_le_of_lt (Nat.zero_le _) hilt
      cases hlastc : s.entities.getLast? with
      | none => exact absurd hlastc (getLast?_ne_none_of_pos hpos)
      | some lastE =>
          rw [clear_eq hhas hg hlastc]
          exact component_eq_none_of_hmGet_none (hmGet_remove_self _ _)

theorem clear_component_other {V : Type} {s : SimpleComponentManager V}
    (hwf : s.WF) {e eOther : Nat} (hne : eOther ≠ e) :
    (s.clear e).component eOther = s.component eOther := by
  cases hhas : s.has e with
  | false => rw [clear_of_not_has hhas]
  | true =>
      obtain ⟨i, hi⟩ := List.mem_iff_getElem?.mp (mem_of_has hhas)
      have hg : hmGet s.entity_idx e = some i := WF_hmGet_of_getElem? hwf hi
      have hilt : i < s.entities.length := (List.getElem?_eq_some_iff.mp hi).1
      have hpos : 0 < s.entities.length := Nat.lt_of_le_of_lt (Nat.zero_le _) hilt
      have hclen : s.components.length = s.entities.length := hwf.1
      have hcpos : 0 < s.components.length := by rw [hclen]; exact hpos
      cases hlastc : s.entities.getLast? with
      | none => exact absurd hlastc (getLast?_ne_none_of_pos hpos)
      | some lastE =>
      cases hclastc : s.components.getLast? with
      | none => exact absurd hclastc (getLast?_ne_none_of_pos hcpos)
      | some lastC =>
      have hn1 : s.entities[s.entities.length - 1]? = some lastE :=
        getLast?_getElem? hlastc
      have hcn1 : s.components[s.components.length - 1]? = some lastC :=
        getLast?_getElem? hclastc
      rw [clear_eq hhas hg hlastc]
      have hrm : hmGet (hmRemove (hmInsert s.entity_idx lastE i) e) eOther =
          hmGet (hmInsert s.entity_idx lastE i) eOther :=
        hmGet_remove_ne _ hne
      by_cases hlastEq : eOther = lastE
      · -- the relocated last entity: found at its new slot `i`
        have hiN1 : i ≠ s.entities.length - 1 := by
          intro hcontra
          rw [hcontra, hn1] at hi
          exact hne (hlastEq.trans (Option.some.inj hi))
        have hRidx : hmGet (hmRemove (hmInsert s.entity_idx lastE i) e) eOther =
            some i :=
          hrm.trans (by rw [hlastEq]; exact hmGet_insert_self _ _ _)
        have hR := component_eq_of_hmGet_some
          (s := { components := swapRemove s.components i
                  entities := swapRemove s.entities i
                  entity_idx := hmRemove (hmInsert s.entity_idx lastE i) e })
          (e := eOther) hRidx
        have hiC : i < s.components.length - 1 := by omega
        have hnew : (swapRemove s.components i)[i]? = some lastC :=
          swapRemove_getElem?_self hclastc hiC
        have hR' :
            ({ components := swapRemove s.components i
               entities := swapRemove s.entities i
               entity_idx := hmRemove (hmInsert s.entity_idx lastE i) e } :
              SimpleComponentManager V).component eOther = some lastC :=
          hR.trans hnew
        have hgold : hmGet s.entity_idx eOther = some (s.entities.length - 1) :=
          WF_hmGet_of_getElem? hwf (by rw [← hlastEq] at hn1; exact hn1)
        rw [hR', component_eq_of_hmGet_some hgold, ← hclen]
        exact hcn1.symm
      · -- any other entity keeps its slot and its component
        have hins : hmGet (hmInsert s.entity_idx lastE i) eOther =
            hmGet s.entity_idx eOther :=
          hmGet_insert_ne _ _ hlastEq
        cases hold : hmGet s.entity_idx eOther with
        | none =>
            have hRnone := component_eq_none_of_hmGet_none
              (s := { components := swapRemove s.components i
                      entities := swapRemove s.entities i
                      entity_idx := hmRemove (hmInsert s.entity_idx lastE i) e })
              (e := eOther) ((hrm.trans hins).trans hold)
            rw [hRnone, component_eq_none_of_hmGet_none hold]
        | some j =>
            have hj : s.entities[j]? = some eOther := WF_getElem?_of_hmGet hwf hold
            have hjlt : j < s.entities.length := (List.getElem?_eq_some_iff.mp hj).1
            have hji : j ≠ i := by
              intro hcontra
              rw [hcontra, hi] at hj
              exact hne (Option.some.inj hj).symm
            have hjN1 : j ≠ s.entities.length - 1 := by
              intro hcontra
              rw [hcontra, hn1] at hj
              exact hlastEq (Option.some.inj hj).symm
            have hjC : j < s.components.length - 1 := by omega
            have hRsome := component_eq_of_hmGet_some
              (s := { components := swapRemove s.components i
                      entities := swapRemove s.entities i
                      entity_idx := hmRemove (hmInsert s.entity_idx lastE i) e })
              (e := eOther) ((hrm.trans hins).trans hold)
            have hR' :
                ({ components := swapRemove s.components i
                   entities := swapRemove s.entities i
                   entity_idx := hmRemove (hmInsert s.entity_idx lastE i) e } :
                  SimpleComponentManager V).component eOther =
                (swapRemove s.components i)[j]? := hRsome
            rw [hR', component_eq_of_hmGet_some hold]
            exact swapRemove_getElem?_of_ne hjC hji

/-! Claims. -/

/-- Claim C1 (code bug): on stores A (tag 0) = {1,2,3} and B (tag 1) = {2,3,4} the
tuple query returns `[4]`, not the intersection `{2,3}`, in either
registration order: the filter pass runs `vec.retain(|e| e == entity)` on each
entity collected into `to_remove`, *keeping* exactly the entities it meant to
drop. -/
theorem C1_intersection_code_bug :
    (EntityQueryTable.new.query c1ManagerAB [0, 1]).1 = some [4] ∧
    (EntityQueryTable.new.query c1ManagerBA [0, 1]).1 = some [4] ∧
    c1ManagerAB.query_entity_ids 0 = some [1, 2, 3] ∧
    c1ManagerAB.query_entity_ids 1 = some [2, 3, 4] ∧
    c1ManagerBA.query_entity_ids 0 = some [1, 2, 3] ∧
    c1ManagerBA.query_entity_ids 1 = some [2, 3, 4] := by
  decide

/-- Claim C2 (counterexample): querying the single-constituent tuple whose type was
never registered yields `Some []`, not `None`: the source discards the
`Option` produced by `for_every_type` and ends with `Some(vec)`. -/
theorem C2_counterexample :
    hmGet (EntityManager.new Nat).managers 0 = none ∧
    (EntityQueryTable.new.query (EntityManager.new Nat) [0]).1 = some [] ∧
    (EntityQueryTable.new.query (EntityManager.new Nat) [0]).1 ≠ none := by
  decide

/-- Claim C2 (amended): a tuple query never returns `None`; when the first
constituent type is unregistered it returns `Some []` (and in general `Some`
of the list accumulated before the first unregistered constituent, filtered by
the second pass). -/
theorem C2_amended_thm {V : Type} (t : EntityQueryTable) (m : EntityManager V)
    (types : List Nat) :
    ((t.query m types).1 ≠ none) ∧
    (∀ tid rest, types = tid :: rest → hmGet m.managers tid = none →
      (t.query m types).1 = some []) := by
  constructor
  · unfold EntityQueryTable.query
    simp
  · rintro tid rest rfl hm
    simp [EntityQueryTable.query, EntityQueryTable.queryPass1,
      EntityQueryTable.queryPass2, EntityManager.query_entity_ids, hm]

theorem C2_amended_witness :
    (EntityQueryTable.new.query (EntityManager.new Nat) [0]).1 = some [] :=
  (C2_amended_thm EntityQueryTable.new (EntityManager.new Nat) [0]).2 0 [] rfl rfl

/-- Claim C3 (counterexample): in the §8 scenario the second
`query_single::<Position>()` does *not* return `[]`: the store is empty after
`remove_entity`, but the call serves the stale cached `[0]`. -/
theorem C3_counterexample :
    c3Second.1 ≠ some ([] : List Nat) ∧
    c3ManagerAfter.query_entity_ids 0 = some [] := by
  decide

/-- Claim C3 (amended): first `query_single` returns `[0]`; after detaching all
components from entity 0 and ticking, the second `query_single` returns the
same stale `[0]`, because `query_single` never invalidates an existing cache
entry. -/
theorem C3_amended_thm :
    c3First.1 = some [0] ∧ c3Second.1 = some [0] := by
  decide

/-- Claim C4 (counterexample): tag 1's store never contained entity 5 and its
changed-frame was 0, yet after `remove_entity(5)` at frame 2 its changed-frame
is 3 — not "left unchanged" as the claim requires. -/
theorem C4_counterexample :
    (hmGet c4Manager.managers 1).map (fun s => s.has 5) = some false ∧
    c4Manager.frame = 2 ∧
    c4Manager.get_updated_frame 1 = 0 ∧
    (c4Manager.remove_entity 5).get_updated_frame 1 = 3 := by
  decide

/-- Claim C4 (amended): after `remove_entity(e)` the changed-frame of *every*
registered component type equals `current_frame + 1`, whether or not its store
contained `e`. -/
theorem C4_amended_thm {V : Type} (m : EntityManager V) (entity_id tid : Nat)
    (h : hmContains m.managers tid = true) :
    (m.remove_entity entity_id).get_updated_frame tid = m.frame + 1 := by
  unfold EntityManager.remove_entity EntityManager.get_updated_frame
  rw [hmGet_foldl_insert_of_mem _ _ _ (mem_keys_of_hmContains h)]
  rfl

theorem C4_amended_witness :
    hmContains c4Manager.managers 1 = true ∧
    (c4Manager.remove_entity 5).get_updated_frame 1 = c4Manager.frame + 1 :=
  ⟨by decide, C4_amended_thm c4Manager 5 1 (by decide)⟩

/-- Claim C5 (confirmed): once `query_single` has produced `Some l` for a tag, every
later `query_single` call on the resulting table returns exactly `(Some l, ·)`
against *any* manager state — the cached list is served verbatim without
consulting the store or the changed-frame. -/
theorem C5_query_single_cached {V : Type} (t tNext : EntityQueryTable)
    (m : EntityManager V) (tid : Nat) (l : List Nat)
    (h : t.query_single m tid = (some l, tNext)) (mLater : EntityManager V) :
    tNext.query_single mLater tid = (some l, tNext) := by
  cases hc : hmContains t.query_cache tid with
  | true =>
      rw [query_single_of_contains m hc] at h
      have hfst : hmGet t.query_cache tid = some l := congrArg Prod.fst h
      have hsnd : t = tNext := congrArg Prod.snd h
      subst hsnd
      rw [query_single_of_contains mLater hc, hfst]
  | false =>
      cases hm : hmGet m.managers tid with
      | none =>
          rw [query_single_of_not_contains_none hc hm] at h
          exact absurd (congrArg Prod.fst h) (by simp)
      | some mgr =>
          rw [query_single_of_not_contains_some hc hm] at h
          have hl : mgr.entities = l := Option.some.inj (congrArg Prod.fst h)
          have hsnd :
              ({ t with
                  query_cache :=
                    hmInsert (hmInsert t.query_cache tid []) tid mgr.entities } :
                EntityQueryTable) = tNext := congrArg Prod.snd h
          subst hsnd
          have hc2 : hmContains
              ({ t with
                  query_cache :=
                    hmInsert (hmInsert t.query_cache tid []) tid mgr.entities } :
                EntityQueryTable).query_cache tid = true :=
            hmContains_insert_self _ _ _
          rw [query_single_of_contains mLater hc2]
          refine Prod.ext ?_ rfl
          rw [← hl]
          exact hmGet_insert_self _ _ _

theorem C5_witness :
    ((EntityQueryTable.new.query_single c3Manager 0).2).query_single
        c3ManagerAfter 0 =
      (some [0], (EntityQueryTable.new.query_single c3Manager 0).2) :=
  C5_query_single_cached EntityQueryTable.new
    ((EntityQueryTable.new.query_single c3Manager 0).2) c3Manager 0 [0]
    (by decide) c3ManagerAfter

/-- Claim C7 (confirmed): attaching `v1` to `e` and then attaching `v2` to `e`
leaves the store exactly as after the first attach alone (the second `with` is
a no-op), and the stored component of `e` is still `v1`. -/
theorem C7_first_write_wins {V : Type} (s : SimpleComponentManager V) (e : Nat)
    (v1 v2 : V) :
    (s.withComponent e v1).withComponent e v2 = s.withComponent e v1 ∧
    (s.has e = false →
      ((s.withComponent e v1).withComponent e v2).component e = some v1) := by
  have h1 : (s.withComponent e v1).withComponent e v2 = s.withComponent e v1 :=
    withComponent_of_has v2 (has_withComponent_self s e v1)
  exact ⟨h1, fun h => by rw [h1]; exact withComponent_component_self s e v1 h⟩

theorem C7_witness :
    (((SimpleComponentManager.new.withComponent 1 (10 : Nat)).withComponent 1
        20).component 1 = some 10) :=
  (C7_first_write_wins SimpleComponentManager.new 1 10 20).2 (by decide)

/-- Claim C8 (counterexample): after freeing index 2 and then index 1, the next
allocation returns 2 (the earliest-freed id), not the smallest available id 1. -/
theorem C8_counterexample :
    c8Container.dead_idx = [2, 1] ∧
    (c8Container.entity).1 = 2 ∧
    (c8Container.entity).1 ≠ 1 := by
  decide

/-- Claim C8 (amended): allocation pops the *front* of the FIFO free pool when it is
non-empty (first-freed-first-reused, not smallest-first); only with an empty
pool does it mint the fresh id `entities.len()` and push a new entity record. -/
theorem C8_amended_thm (c : EntityContainer) :
    (∀ i rest, c.dead_idx = i :: rest →
      c.entity = (i, { c with dead_idx := rest })) ∧
    (c.dead_idx = [] →
      c.entity = (c.entities.length,
        { c with entities := c.entities ++ [Entity.new (c.entities.length + 1)] })) := by
  constructor
  · intro i rest h
    unfold EntityContainer.entity
    rw [h]
  · intro h
    unfold EntityContainer.entity
    rw [h]
    simp

theorem C8_amended_witness :
    c8Container.dead_idx = 2 :: [1] ∧
    c8Container.entity = (2, { c8Container with dead_idx := [1] }) :=
  ⟨by decide, (C8_amended_thm c8Container).1 2 [1] (by decide)⟩

/-- Claim C9 (counterexample): tag 0 is registered but entity 7 has no component of
it; `query_entity` hits the `component_mut(entity).unwrap()` and panics
instead of returning `None`. -/
theorem C9_counterexample :
    (hmGet c9Manager.managers 0).isSome = true ∧
    c9Manager.query_entity 0 7 = EntityManager.QueryResult.panic ∧
    c9Manager.query_entity 0 7 ≠ EntityManager.QueryResult.retNone := by
  decide

/-- Claim C9 (amended): the typed lookup returns `None` when the type was never
registered, but when the type is registered and the entity lacks the
component it *panics* (`unwrap` of `None`); only when the component exists is
it returned. -/
theorem C9_amended_thm {V : Type} (m : EntityManager V) (tid entity_id : Nat) :
    (hmGet m.managers tid = none →
      m.query_entity tid entity_id = EntityManager.QueryResult.retNone) ∧
    (∀ mgr, hmGet m.managers tid = some mgr → mgr.component entity_id = none →
      m.query_entity tid entity_id = EntityManager.QueryResult.panic) ∧
    (∀ mgr v, hmGet m.managers tid = some mgr → mgr.component entity_id = some v →
      m.query_entity tid entity_id = EntityManager.QueryResult.ret v) := by
  refine ⟨fun h => by simp [EntityManager.query_entity, h],
    fun mgr h hc => by simp [EntityManager.query_entity, h, hc],
    fun mgr v h hc => by simp [EntityManager.query_entity, h, hc]⟩

theorem C9_amended_witness :
    c9Manager.query_entity 0 7 = EntityManager.QueryResult.panic :=
  (C9_amended_thm c9Manager 0 7).2.1 SimpleComponentManager.new (by decide) (by decide)

/-- Claim C10 (confirmed): a first `query_single` on a never-registered tag returns
`None` but leaves an empty cache entry behind, so every later `query_single`
for that tag returns `Some []` against *any* manager state — including one in
which the tag has since been registered and populated. -/
theorem C10_stale_empty_cache {V : Type} (t : EntityQueryTable)
    (m : EntityManager V) (tid : Nat)
    (h1 : hmContains t.query_cache tid = false)
    (h2 : hmGet m.managers tid = none) :
    (t.query_single m tid).1 = none ∧
    hmGet ((t.query_single m tid).2).query_cache tid = some [] ∧
    ∀ mLater : EntityManager V,
      ((t.query_single m tid).2).query_single mLater tid =
        (some [], (t.query_single m tid).2) := by
  rw [query_single_of_not_contains_none h1 h2]
  refine ⟨rfl, hmGet_insert_self _ _ _, fun mLater => ?_⟩
  have hc2 : hmContains
      (((none : Option (List Nat)),
        ({ t with query_cache := hmInsert t.query_cache tid [] } :
          EntityQueryTable)).2).query_cache tid = true :=
    hmContains_insert_self _ _ _
  rw [query_single_of_contains mLater hc2]
  exact Prod.ext (hmGet_insert_self _ _ _) rfl

/-- Claim C6 (confirmed): on a well-formed store, inserting a value for an absent
entity makes `component` return exactly that value; after `clear(e)`,
`component(e) = none` and `has(e) = false`; and every other entity — in
particular one swap-relocated into the freed dense slot — keeps its stored
component. -/
theorem C6_sparse_set_store {V : Type} (s : SimpleComponentManager V)
    (e eOther : Nat) (v : V) (hwf : s.WF) :
    (s.has e = false → (s.withComponent e v).component e = some v) ∧
    (s.clear e).component e = none ∧
    (s.clear e).has e = false ∧
    (eOther ≠ e → (s.clear e).component eOther = s.component eOther) :=
  ⟨fun h => withComponent_component_self s e v h,
    clear_component_self hwf e,
    clear_has_self hwf e,
    fun hne => clear_component_other hwf hne⟩

theorem C6_witness :
    (c6Store.clear 1).component 1 = none ∧
    (c6Store.clear 1).has 1 = false ∧
    (c6Store.clear 1).component 3 = c6Store.component 3 ∧
    (c6Store.withComponent 4 (40 : Nat)).component 4 = some 40 := by
  have h1 := C6_sparse_set_store c6Store 1 3 (0 : Nat) (by decide)
  have h4 := C6_sparse_set_store c6Store 4 3 (40 : Nat) (by decide)
  exact ⟨h1.2.1, h1.2.2.1, h1.2.2.2 (by decide), h4.1 (by decide)⟩

theorem C10_witness :
    c10First.1 = none ∧
    c10LaterManager.query_entity_ids 0 = some [0] ∧
    (c10First.2).query_single c10LaterManager 0 = (some [], c10First.2) := by
  have h := C10_stale_empty_cache EntityQueryTable.new (EntityManager.new Nat) 0
    (by decide) (by decide)
  exact ⟨h.1, by decide, h.2.2 c10LaterManager⟩

end Skyward
